import Mathlib

/-!
Verification of the openpath-pipeline core against its specification.

The definitions below are shallow embeddings of the Python source:

* `standard_convert_to_result`, the row classifier of
  `data_sources/lib/intermediate_file_processing.py` (with the module-level
  negative cache `NO_REF_RANGES` made an explicit argument);
* the merge / suppression engine of `lib/whole_file_processing.py`
  (`combine_and_append_csvs`, `normalise_and_suppress`, `estimate_errors`,
  `trim_trailing_months`, `add_practice_metadata`);
* the intermediate-file converter `make_intermediate_file` and the ledger
  operations of `data_sources/lib/intermediate_file_tracking.py`;
* the orchestration in `data_sources/lib/runner.py`.

Numeric values that the source handles as Python floats are embedded as
rationals; Python `None` / empty-string "falsy" values are embedded as
`Option`.  Filesystem and database effects are embedded as explicit state
and event traces.
-/

namespace OpenPath

/-- The result-category enumeration of `data_sources/lib/settings.py`
(`WITHIN_RANGE` .. `ERR_INVALID_REF_RANGE`). -/
inductive ResultCategory where
  | withinRange
  | underRange
  | overRange
  | errNoRefRange
  | errUnparseableResult
  | errInvalidSex
  | errInvalidRangeWithDirection
  | errDiscardedAge
  | errInvalidRefRange
deriving DecidableEq, Repr

/-- The numeric code each category is stored as, per `settings.py`. -/
def ResultCategory.code : ResultCategory → Int
  | .withinRange => 0
  | .underRange => -1
  | .overRange => 1
  | .errNoRefRange => 2
  | .errUnparseableResult => 3
  | .errInvalidSex => 4
  | .errInvalidRangeWithDirection => 5
  | .errDiscardedAge => 6
  | .errInvalidRefRange => 7

/-- `settings.RANGE_CEILING`. -/
def RANGE_CEILING : ℚ := 99999

/-- `settings.SUPPRESS_UNDER`. -/
def SUPPRESS_UNDER : ℕ := 6

/-- `settings.SUPPRESS_STRING`, i.e. `"1-{}".format(SUPPRESS_UNDER - 1)`
with `SUPPRESS_UNDER = 6`. -/
def SUPPRESS_STRING : String := "1-5"

/-- A row's `test_result` value: either a parsed Python float (embedded as a
rational) or an unparsed original value (anything that is not a float,
which `standard_convert_to_result` checks with `isinstance(result, float)`). -/
inductive TestResult where
  | num (q : ℚ)
  | unparsed (s : String)
deriving DecidableEq, Repr

/-- A canonical row as consumed by the classifier.  `direction` is `none`
for Python `None` or the empty string (the two are observationally
equivalent throughout the classifier: both are falsy and neither equals
a one-character marker string). -/
structure RRow where
  month : String
  test_code : String
  practice_id : String
  age : ℚ
  sex : String
  direction : Option String
  test_result : TestResult
deriving DecidableEq, Repr

/-- One reference range row, after the conversions the classifier applies:
`min_adult_age` / `max_adult_age` are read with `int(float(...))`, the four
bounds are Python strings whose truthiness is tested before `float(...)` is
applied, so an empty ("falsy") bound is `none`. -/
structure RefRange where
  test : String
  min_adult_age : Int
  max_adult_age : Int
  low_F : Option ℚ
  high_F : Option ℚ
  low_M : Option ℚ
  high_M : Option ℚ
deriving DecidableEq, Repr

/-- The comparison block of `standard_convert_to_result` once a matching
age band with both bounds present has been selected (lines 117-153 of
`data_sources/lib/intermediate_file_processing.py`). -/
def compareWithBounds (result low high : ℚ) (direction : Option String) :
    ResultCategory :=
  if high < result then
    if direction = some "<" then .errInvalidRangeWithDirection else .overRange
  else if result < low then
    if direction = some ">" then .errInvalidRangeWithDirection else .underRange
  else
    if direction = none ∨ (direction = some "<" ∧ low = 0) ∨
        (direction = some ">" ∧ high = RANGE_CEILING) then
      .withinRange
    else
      .errInvalidRangeWithDirection

/-- The scanning loop of `standard_convert_to_result` (lines 86-160).
Arguments `lastMatched`, `tentative` (the running `return_code`) and
`found` carry the loop state; the result is the pair
`(return_code, found)` at loop exit.  A `some` result models a `break`.
The `log_info` / `log_warning` calls are effect-free here: the logger
module the `data_sources` classifier imports is not part of the source
tree, and the spec (§7) treats the ERR categories as data that is stored,
never thrown. -/
def scanRanges (tc : String) (res : TestResult) (sex : String) (age : ℚ)
    (direction : Option String) :
    List RefRange → Option String → Option ResultCategory → Bool →
    Option ResultCategory × Bool
  | [], _, tentative, found => (tentative, found)
  | r :: rest, lastMatched, tentative, found =>
    if r.test = tc then
      match res with
      | .unparsed _ => (some .errUnparseableResult, true)
      | .num q =>
        if lastMatched.isSome ∧ lastMatched ≠ some r.test then
          -- the short-circuit for sorted rows (dead in this loop shape,
          -- since lastMatched is only ever set to tc)
          (some .errNoRefRange, true)
        else
          if (r.min_adult_age : ℚ) ≤ age ∧ age < (r.max_adult_age : ℚ) then
            if sex = "M" then
              match r.low_M, r.high_M with
              | some low, some high => (some (compareWithBounds q low high direction), true)
              | _, _ => (some .errInvalidRefRange, true)
            else if sex = "F" then
              match r.low_F, r.high_F with
              | some low, some high => (some (compareWithBounds q low high direction), true)
              | _, _ => (some .errInvalidRefRange, true)
            else
              (some .errInvalidSex, true)
          else
            scanRanges tc res sex age direction rest (some r.test)
              (some .errDiscardedAge) true
    else
      scanRanges tc res sex age direction rest lastMatched tentative found

/-- `standard_convert_to_result` with the module-level negative cache
`NO_REF_RANGES` made explicit.  Returns the value assigned to
`row["result_category"]` (`none` would model Python `None`) together with
the cache after the call. -/
def standard_convert_to_result (cache : List String) (row : RRow)
    (ranges : List RefRange) : Option ResultCategory × List String :=
  if row.test_code ∈ cache then
    (some .errNoRefRange, cache)
  else
    let out := scanRanges row.test_code row.test_result row.sex row.age
      row.direction ranges none none false
    if out.2 then (out.1, cache)
    else (some .errNoRefRange, row.test_code :: cache)

/-- Modelled from the spec: the cache-free classifier variant that always
scans the supplied range list ("a cache-free variant that always scans the
supplied range list", §5); used to state the cache-transparency claim. -/
def convert_nocache (row : RRow) (ranges : List RefRange) :
    Option ResultCategory :=
  let out := scanRanges row.test_code row.test_result row.sex row.age
    row.direction ranges none none false
  if out.2 then out.1 else some .errNoRefRange

/-- A sequence of classification calls (row plus the reference-range list
supplied for that call), threading the process-wide cache through. -/
def runCalls (cache : List String) :
    List (RRow × List RefRange) → List (Option ResultCategory)
  | [] => []
  | (row, ranges) :: rest =>
    let out := standard_convert_to_result cache row ranges
    out.1 :: runCalls out.2 rest

/-- The first reference-range entry whose `test` equals the row's test code
and whose age band contains the row's age: the entry whose bounds the scan
loop ends up comparing against. -/
def firstAgeMatch (tc : String) (age : ℚ) : List RefRange → Option RefRange
  | [] => none
  | r :: rest =>
    if r.test = tc ∧ (r.min_adult_age : ℚ) ≤ age ∧ age < (r.max_adult_age : ℚ) then
      some r
    else
      firstAgeMatch tc age rest

/-- The scan's `found` flag at loop exit is the input flag joined with
"some entry's `test` equals the row's test code". -/
lemma scan_found_eq (tc : String) (res : TestResult) (sex : String) (age : ℚ)
    (dir : Option String) :
    ∀ (ranges : List RefRange) (lm : Option String)
      (t : Option ResultCategory) (f : Bool),
      (scanRanges tc res sex age dir ranges lm t f).2 =
        (f || ranges.any fun r => r.test == tc) := by
  intro ranges
  induction ranges with
  | nil => intro lm t f; simp [scanRanges]
  | cons r rest ih =>
    intro lm t f
    by_cases hr : r.test = tc
    · cases res with
      | unparsed s => simp [scanRanges, hr, beq_iff_eq]
      | num q =>
        simp only [scanRanges, if_pos hr]
        by_cases hlm : lm.isSome = true ∧ lm ≠ some r.test
        · rw [if_pos hlm]
          simp [hr, beq_iff_eq]
        · simp only [if_neg hlm]
          by_cases hage : (r.min_adult_age : ℚ) ≤ age ∧ age < (r.max_adult_age : ℚ)
          · simp only [if_pos hage]
            by_cases hm : sex = "M"
            · simp only [if_pos hm]
              cases r.low_M <;> cases r.high_M <;> simp [hr, beq_iff_eq]
            · simp only [if_neg hm]
              by_cases hf : sex = "F"
              · simp only [if_pos hf]
                cases r.low_F <;> cases r.high_F <;> simp [hr, beq_iff_eq]
              · simp [if_neg hf, hr, beq_iff_eq]
          · simp only [if_neg hage]
            rw [ih]
            simp [hr, beq_iff_eq]
    · have hb : (r.test == tc) = false := beq_eq_false_iff_ne.mpr hr
      simp only [scanRanges, if_neg hr]
      rw [ih]
      simp [hb]

/-- When no entry matches the test code, the scan leaves the loop state
untouched. -/
lemma scan_nomatch (tc : String) (res : TestResult) (sex : String) (age : ℚ)
    (dir : Option String) :
    ∀ (ranges : List RefRange) (lm : Option String)
      (t : Option ResultCategory) (f : Bool),
      (∀ r ∈ ranges, r.test ≠ tc) →
      scanRanges tc res sex age dir ranges lm t f = (t, f) := by
  intro ranges
  induction ranges with
  | nil => intro lm t f _; rfl
  | cons r rest ih =>
    intro lm t f h
    have hr : r.test ≠ tc := h r (List.mem_cons_self r rest)
    simp only [scanRanges, if_neg hr]
    exact ih lm t f fun x hx => h x (List.mem_cons_of_mem r hx)

/-- If the `found` flag implies the running `return_code` is set, the same
holds at loop exit: a `found` scan never leaves the code `None`. -/
lemma scan_code_isSome (tc : String) (res : TestResult) (sex : String) (age : ℚ)
    (dir : Option String) :
    ∀ (ranges : List RefRange) (lm : Option String)
      (t : Option ResultCategory) (f : Bool),
      (f = true → t.isSome = true) →
      ((scanRanges tc res sex age dir ranges lm t f).2 = true →
        (scanRanges tc res sex age dir ranges lm t f).1.isSome = true) := by
  intro ranges
  induction ranges with
  | nil => intro lm t f h; exact h
  | cons r rest ih =>
    intro lm t f h
    by_cases hr : r.test = tc
    · cases res with
      | unparsed s => simp [scanRanges, hr]
      | num q =>
        simp only [scanRanges, if_pos hr]
        by_cases hlm : lm.isSome = true ∧ lm ≠ some r.test
        · simp [hlm]
        · simp only [if_neg hlm]
          by_cases hage : (r.min_adult_age : ℚ) ≤ age ∧ age < (r.max_adult_age : ℚ)
          · simp only [if_pos hage]
            by_cases hm : sex = "M"
            · simp only [if_pos hm]
              cases r.low_M <;> cases r.high_M <;> simp
            · simp only [if_neg hm]
              by_cases hf : sex = "F"
              · simp only [if_pos hf]
                cases r.low_F <;> cases r.high_F <;> simp
              · simp [if_neg hf]
          · simp only [if_neg hage]
            exact ih _ _ _ (fun _ => rfl)
    · simp only [scanRanges, if_neg hr]
      exact ih lm t f h

/-- The scan reaching the first matching age band: if the result is a
parsed float, the sex is "M" or "F", the loop state satisfies its
invariant (`lastMatched` is `None` or the row's own test code) and the
first test-and-age matching entry has both bounds for the row's sex, the
scan returns exactly the bounds comparison for that entry. -/
lemma scan_first_age_match (tc : String) (q : ℚ) (sex : String) (age : ℚ)
    (dir : Option String) (r : RefRange) (low high : ℚ)
    (hsex : sex = "M" ∨ sex = "F")
    (hbounds : (if sex = "M" then (r.low_M, r.high_M) else (r.low_F, r.high_F)) =
      (some low, some high)) :
    ∀ (ranges : List RefRange) (lm : Option String)
      (t : Option ResultCategory) (f : Bool),
      (lm = none ∨ lm = some tc) →
      firstAgeMatch tc age ranges = some r →
      scanRanges tc (.num q) sex age dir ranges lm t f =
        (some (compareWithBounds q low high dir), true) := by
  intro ranges
  induction ranges with
  | nil => intro lm t f _ hfirst; exact absurd hfirst (by simp [firstAgeMatch])
  | cons r0 rest ih =>
    intro lm t f hlm hfirst
    have hlm' : ¬(lm.isSome = true ∧ lm ≠ some r0.test) ∨ r0.test ≠ tc := by
      by_cases hr0 : r0.test = tc
      · left
        rcases hlm with h | h <;> simp [h, hr0]
      · right; exact hr0
    by_cases hc : r0.test = tc ∧ (r0.min_adult_age : ℚ) ≤ age ∧ age < (r0.max_adult_age : ℚ)
    · -- this entry is the first test-and-age match, so it is `r`
      have hr : r0 = r := by
        have := hfirst
        rw [firstAgeMatch, if_pos hc] at this
        exact Option.some_injective _ this
      subst hr
      have hnoshort : ¬(lm.isSome = true ∧ lm ≠ some r0.test) := by
        rcases hlm' with h | h
        · exact h
        · exact absurd hc.1 h
      simp only [scanRanges, if_pos hc.1, if_neg hnoshort, if_pos hc.2]
      rcases hsex with hm | hf
      · rw [if_pos hm] at hbounds
        simp only [if_pos hm, Prod.mk.injEq] at hbounds ⊢
        rw [hbounds.1, hbounds.2]
      · by_cases hm : sex = "M"
        · rw [if_pos hm] at hbounds
          simp only [if_pos hm, Prod.mk.injEq] at hbounds ⊢
          rw [hbounds.1, hbounds.2]
        · rw [if_neg hm] at hbounds
          simp only [if_neg hm, if_pos hf, Prod.mk.injEq] at hbounds ⊢
          rw [hbounds.1, hbounds.2]
    · have hrest : firstAgeMatch tc age rest = some r := by
        have := hfirst
        rwa [firstAgeMatch, if_neg hc] at this
      by_cases hr0 : r0.test = tc
      · -- matching test code but wrong age band: tentative ERR_DISCARDED_AGE
        have hage : ¬((r0.min_adult_age : ℚ) ≤ age ∧ age < (r0.max_adult_age : ℚ)) := by
          intro h
          exact hc ⟨hr0, h⟩
        have hnoshort : ¬(lm.isSome = true ∧ lm ≠ some r0.test) := by
          rcases hlm' with h | h
          · exact h
          · exact absurd hr0 h
        simp only [scanRanges, if_pos hr0, if_neg hnoshort, if_neg hage]
        exact ih _ _ _ (Or.inr (by rw [hr0])) hrest
      · simp only [scanRanges, if_neg hr0]
        exact ih lm t f hlm hrest

/-- C2: for a row with a parsed float result, sex "M" or "F", a test code
not in the negative cache, whose first test-and-age matching reference
range has both bounds for that sex, `standard_convert_to_result` returns
exactly the §4.2 step-7 comparison outcome: over the high bound it is
OVER_RANGE unless the direction marker is "<" (then
ERR_INVALID_RANGE_WITH_DIRECTION); under the low bound it is UNDER_RANGE
unless the direction is ">"; within bounds it is WITHIN_RANGE when the
direction is absent, or "<" with low = 0, or ">" with high = 99999, and
ERR_INVALID_RANGE_WITH_DIRECTION for any other combination. -/
theorem C2_range_comparison (cache : List String) (row : RRow)
    (ranges : List RefRange) (q low high : ℚ) (r : RefRange)
    (hres : row.test_result = .num q)
    (hsex : row.sex = "M" ∨ row.sex = "F")
    (hcache : row.test_code ∉ cache)
    (hmatch : firstAgeMatch row.test_code row.age ranges = some r)
    (hbounds : (if row.sex = "M" then (r.low_M, r.high_M)
        else (r.low_F, r.high_F)) = (some low, some high)) :
    (standard_convert_to_result cache row ranges).1 =
      some (if q > high then
              (if row.direction = some "<" then .errInvalidRangeWithDirection
               else .overRange)
            else if q < low then
              (if row.direction = some ">" then .errInvalidRangeWithDirection
               else .underRange)
            else if row.direction = none ∨ (row.direction = some "<" ∧ low = 0) ∨
                (row.direction = some ">" ∧ high = RANGE_CEILING) then
              .withinRange
            else .errInvalidRangeWithDirection) := by
  have hscan := scan_first_age_match row.test_code q row.sex row.age
    row.direction r low high hsex hbounds ranges none none false (Or.inl rfl) hmatch
  simp only [standard_convert_to_result, if_neg hcache, hres, hscan]
  rfl

/-- Closed witness for C2, at the spec's own example (low 10, high 20, no
direction, result 15 falls WITHIN_RANGE). -/
theorem C2_range_comparison_witness :
    (standard_convert_to_result []
      ⟨"2021/01/01", "T", "P1", 50, "M", none, .num 15⟩
      [⟨"T", 0, 100, none, none, some 10, some 20⟩]).1 =
      some .withinRange := by
  have h := C2_range_comparison []
    ⟨"2021/01/01", "T", "P1", 50, "M", none, .num 15⟩
    [⟨"T", 0, 100, none, none, some 10, some 20⟩] 15 10 20
    ⟨"T", 0, 100, none, none, some 10, some 20⟩
    rfl (Or.inl rfl) (by simp) (by norm_num [firstAgeMatch]) rfl
  rw [h]
  norm_num

/-- Soundness of the negative cache with respect to a range list: every
cached test code has no entry at all in the list. -/
def cacheSound (cache : List String) (ranges : List RefRange) : Prop :=
  ∀ tc ∈ cache, ∀ r ∈ ranges, r.test ≠ tc

/-- One classification call against a range list the cache is sound for
agrees with the cache-free variant, and keeps the cache sound. -/
lemma convert_cached_step (cache : List String) (row : RRow)
    (ranges : List RefRange) (h : cacheSound cache ranges) :
    (standard_convert_to_result cache row ranges).1 = convert_nocache row ranges ∧
      cacheSound (standard_convert_to_result cache row ranges).2 ranges := by
  by_cases hc : row.test_code ∈ cache
  · have hno : ∀ r ∈ ranges, r.test ≠ row.test_code := h row.test_code hc
    have hscan := scan_nomatch row.test_code row.test_result row.sex row.age
      row.direction ranges none none false hno
    constructor
    · simp [standard_convert_to_result, convert_nocache, if_pos hc, hscan]
    · simp only [standard_convert_to_result, if_pos hc]
      exact h
  · constructor
    · simp only [standard_convert_to_result, convert_nocache, if_neg hc]
      by_cases hf : (scanRanges row.test_code row.test_result row.sex row.age
          row.direction ranges none none false).2 = true
      · simp [hf]
      · simp [hf]
    · simp only [standard_convert_to_result, if_neg hc]
      by_cases hf : (scanRanges row.test_code row.test_result row.sex row.age
          row.direction ranges none none false).2 = true
      · simp only [if_pos hf]
        exact h
      · simp only [if_neg hf]
        intro tc htc r hr
        rcases List.mem_cons.mp htc with heq | hmem
        · subst heq
          intro hcontra
          rw [scan_found_eq] at hf
          simp only [Bool.false_or] at hf
          exact hf (List.any_eq_true.mpr ⟨r, hr, by simp [hcontra]⟩)
        · exact h tc hmem r hr

/-- C3 counterexample: the claim quantifies over calls with different
reference-range lists in one process.  Classify test code "T" against an
empty range list (which caches "T"), then against a list that does contain
"T": the cached classifier returns ERR_NO_REF_RANGE for the second call
while the cache-free variant returns WITHIN_RANGE, so the two disagree. -/
theorem C3_cache_counterexample :
    runCalls []
        [(⟨"2021/01/01", "T", "P1", 50, "M", none, .num 15⟩, []),
         (⟨"2021/01/01", "T", "P1", 50, "M", none, .num 15⟩,
          [⟨"T", 0, 100, none, none, some 10, some 20⟩])] ≠
      [convert_nocache ⟨"2021/01/01", "T", "P1", 50, "M", none, .num 15⟩ [],
       convert_nocache ⟨"2021/01/01", "T", "P1", 50, "M", none, .num 15⟩
         [⟨"T", 0, 100, none, none, some 10, some 20⟩]] := by
  decide

/-- C3 (amended): when every call in the sequence uses one and the same
reference-range list and the starting cache is sound for it (in
particular, the initial empty `NO_REF_RANGES`), the cached classifier
returns exactly what the cache-free variant returns, on every call. -/
theorem C3_cache_transparency (ranges : List RefRange) (rows : List RRow)
    (cache : List String) (h : cacheSound cache ranges) :
    runCalls cache (rows.map fun row => (row, ranges)) =
      rows.map fun row => convert_nocache row ranges := by
  induction rows generalizing cache with
  | nil => rfl
  | cons row rest ih =>
    have hstep := convert_cached_step cache row ranges h
    simp only [List.map_cons, runCalls]
    rw [hstep.1]
    exact congrArg _ (ih _ hstep.2)

/-- Closed witness for C3's amended statement: a two-call sequence against
one fixed range list, starting from the empty cache. -/
theorem C3_cache_witness :
    runCalls []
        ([⟨"2021/01/01", "T", "P1", 50, "M", none, .num 15⟩,
          ⟨"2021/01/01", "U", "P1", 50, "M", none, .num 15⟩].map fun row =>
            (row, [(⟨"T", 0, 100, none, none, some 10, some 20⟩ : RefRange)])) =
      [⟨"2021/01/01", "T", "P1", 50, "M", none, .num 15⟩,
       ⟨"2021/01/01", "U", "P1", 50, "M", none, .num 15⟩].map fun row =>
        convert_nocache row [⟨"T", 0, 100, none, none, some 10, some 20⟩] :=
  C3_cache_transparency _ _ [] (by intro tc htc; simp at htc)

/-- C9: for every input row (any result, age, sex, direction), every cache
and every reference-range list (including the empty one),
`standard_convert_to_result` assigns `result_category` exactly one of the
nine enumeration values: it is never left `None`. -/
theorem C9_category_total (cache : List String) (row : RRow)
    (ranges : List RefRange) :
    ∃ c, (standard_convert_to_result cache row ranges).1 = some c ∧
      (c = .withinRange ∨ c = .underRange ∨ c = .overRange ∨
       c = .errNoRefRange ∨ c = .errUnparseableResult ∨ c = .errInvalidSex ∨
       c = .errInvalidRangeWithDirection ∨ c = .errDiscardedAge ∨
       c = .errInvalidRefRange) := by
  have henum : ∀ c : ResultCategory,
      c = .withinRange ∨ c = .underRange ∨ c = .overRange ∨
      c = .errNoRefRange ∨ c = .errUnparseableResult ∨ c = .errInvalidSex ∨
      c = .errInvalidRangeWithDirection ∨ c = .errDiscardedAge ∨
      c = .errInvalidRefRange := by
    intro c; cases c <;> simp
  have hsome : ((standard_convert_to_result cache row ranges).1).isSome = true := by
    by_cases hc : row.test_code ∈ cache
    · simp [standard_convert_to_result, if_pos hc]
    · simp only [standard_convert_to_result, if_neg hc]
      by_cases hf : (scanRanges row.test_code row.test_result row.sex row.age
          row.direction ranges none none false).2 = true
      · simp only [if_pos hf]
        exact scan_code_isSome _ _ _ _ _ ranges none none false (by simp) hf
      · simp [if_neg hf]
  rcases Option.isSome_iff_exists.mp hsome with ⟨c, hcx⟩
  exact ⟨c, hcx, henum c⟩

/-! ### Merge & Suppression Engine: aggregation, suppression, trimming
(`lib/whole_file_processing.py`) -/

/-- A row of a combined dataset (the `REQUIRED_NORMALISED_KEYS` columns of
`settings.py`); `result_category` is stored as its numeric code. -/
structure NRow where
  month : String
  test_code : String
  practice_id : String
  result_category : Int
deriving DecidableEq, Repr

/-- The composite aggregation key `(month, test_code, practice_id,
result_category)`. -/
abbrev AKey := String × String × String × Int

/-- The aggregation key of a combined-dataset row. -/
def keyOf (r : NRow) : AKey := (r.month, r.test_code, r.practice_id, r.result_category)

/-- The realized groups of `groupby([...], observed=True)`: the distinct
keys occurring in the data, in first-occurrence order. -/
def groupKeys (rows : List NRow) : List AKey := (rows.map keyOf).dedup

/-- The size of one aggregation group. -/
def groupCount (rows : List NRow) (k : AKey) : ℕ :=
  rows.countP fun r => decide (keyOf r = k)

/-- A cell of the `count` column, which holds integers mixed with the
suppression sentinel string. -/
inductive CountVal where
  | str (s : String)
  | int (n : ℕ)
deriving DecidableEq, Repr

/-- The `.groupby(["month", "test_code", "practice_id",
"result_category"], observed=True).count()` step of
`normalise_and_suppress`: one `(key, group size)` pair per realized
group. -/
def aggregateCounts (rows : List NRow) : List (AKey × ℕ) :=
  (groupKeys rows).map fun k => (k, groupCount rows k)

/-- The suppression step: `aggregated.loc[aggregated["count"] <
settings.SUPPRESS_UNDER, "count"] = settings.SUPPRESS_STRING`. -/
def suppressCounts (agg : List (AKey × ℕ)) : List (AKey × CountVal) :=
  agg.map fun kc =>
    (kc.1, if kc.2 < SUPPRESS_UNDER then CountVal.str SUPPRESS_STRING
           else CountVal.int kc.2)

/-- An output row of the per-lab anonymized aggregate. -/
structure AggRow where
  month : String
  test_code : String
  practice_id : String
  result_category : Int
  lab_id : String
  count : ℕ
  error : ℕ
deriving DecidableEq, Repr

/-- The aggregation key of an aggregate row. -/
def aggKeyOf (r : AggRow) : AKey :=
  (r.month, r.test_code, r.practice_id, r.result_category)

/-- Build one aggregate row from a key and numeric count/error pair. -/
def mkAggRow (lab : String) (k : AKey) (c e : ℕ) : AggRow :=
  { month := k.1, test_code := k.2.1, practice_id := k.2.2.1,
    result_category := k.2.2.2, lab_id := lab, count := c, error := e }

/-- `df["count"].replace("1-5", 3)` on one cell. -/
def replaceSentinel : CountVal → CountVal
  | .str s => if s = "1-5" then .int 3 else .str s
  | .int n => .int n

/-- `pd.to_numeric` on one cell of the `count` column: an integer passes
through, a remaining string must parse as a number or the call raises. -/
def toNumericCount : CountVal → Option ℕ
  | .int n => some n
  | .str s => s.toNat?

/-- `estimate_errors` of `lib/whole_file_processing.py`, cell by cell:
replace the sentinel by 3, set `error` to 2 exactly where the count is now
3 (0 elsewhere, via `fillna`), and convert the column to numeric (`none`
models a `to_numeric` failure).  The `lab_id` column was added just before
this call in `normalise_and_suppress`. -/
def estimate_errors (lab : String) : List (AKey × CountVal) → Option (List AggRow)
  | [] => some []
  | kc :: rest =>
    match toNumericCount (replaceSentinel kc.2), estimate_errors lab rest with
    | some c, some out =>
      some (mkAggRow lab kc.1 c
        (if replaceSentinel kc.2 = CountVal.int 3 then 2 else 0) :: out)
    | _, _ => none

/-- The per-month sum of the `count` column (`df.groupby(["month"])
["count"].sum()`). -/
def monthTotal (df : List AggRow) (m : String) : ℕ :=
  ((df.filter fun r => decide (r.month = m)).map fun r => r.count).sum

/-- The maximum monthly total (`t2["count"].max()`). -/
def maxMonthlyTotal (df : List AggRow) : ℕ :=
  (((df.map fun r => r.month).dedup).map (monthTotal df)).foldr max 0

/-- `trim_trailing_months`: keep the months whose total is strictly
greater than 5% of the maximum monthly total (`t2.loc[t2["count"] >
t2["count"].max() * 0.05]`, then an inner join back on `month`).  The
source comparison `count > max * 0.05` is embedded in exact arithmetic,
cross-multiplied by 100: `max * 5 < count * 100`. -/
def trim_trailing_months (df : List AggRow) : List AggRow :=
  df.filter fun r =>
    decide (maxMonthlyTotal df * 5 < monthTotal df r.month * 100)

/-- `add_practice_metadata`: an inner join against the practice lookup
keyed by `(month, practice_id)`; rows without a match are dropped (the
lookup's metadata columns are irrelevant to the claims and omitted). -/
def add_practice_metadata (practices : List (String × String))
    (df : List AggRow) : List AggRow :=
  df.filter fun r => decide ((r.month, r.practice_id) ∈ practices)

/-- The aggregation tail of `normalise_and_suppress` (lines 256-277 of
`lib/whole_file_processing.py`), taking the already test-code-normalised
rows: aggregate, suppress, `estimate_errors`, `trim_trailing_months`,
`add_practice_metadata`, and write (`none` models both an empty input, for
which the source returns `None`, and a `to_numeric` failure). -/
def aggregate_and_suppress (lab : String) (normalised : List NRow)
    (practices : List (String × String)) : Option (List AggRow) :=
  if normalised = [] then none
  else
    (estimate_errors lab (suppressCounts (aggregateCounts normalised))).map
      fun df => add_practice_metadata practices (trim_trailing_months df)

/-- How `to_csv` renders a numeric count cell. -/
def renderCount (n : ℕ) : String := toString n

/-- Unfolding `suppressCounts` on a cons. -/
lemma suppressCounts_cons (kc : AKey × ℕ) (rest : List (AKey × ℕ)) :
    suppressCounts (kc :: rest) =
      (kc.1, if kc.2 < SUPPRESS_UNDER then CountVal.str SUPPRESS_STRING
             else CountVal.int kc.2) :: suppressCounts rest := rfl

/-- `estimate_errors` on a suppressed aggregate never fails and rewrites
each suppressed group to count 3 / error 2, keeping counts of 6 or more
exactly, with error 0. -/
lemma estimate_errors_suppress (lab : String) (agg : List (AKey × ℕ)) :
    estimate_errors lab (suppressCounts agg) =
      some (agg.map fun kc =>
        mkAggRow lab kc.1 (if kc.2 < SUPPRESS_UNDER then 3 else kc.2)
          (if kc.2 < SUPPRESS_UNDER then 2 else 0)) := by
  induction agg with
  | nil => rfl
  | cons kc rest ih =>
    rw [suppressCounts_cons, List.map_cons]
    by_cases hc : kc.2 < SUPPRESS_UNDER
    · rw [if_pos hc, if_pos hc, if_pos hc]
      have h1 : replaceSentinel (CountVal.str SUPPRESS_STRING) = CountVal.int 3 := by
        simp [replaceSentinel, SUPPRESS_STRING]
      simp only [estimate_errors, h1, ih, toNumericCount]
      simp
    · rw [if_neg hc, if_neg hc, if_neg hc]
      have h1 : replaceSentinel (CountVal.int kc.2) = CountVal.int kc.2 := rfl
      have hne : ¬(CountVal.int kc.2 = CountVal.int 3) := by
        intro h
        injection h with h2
        rw [h2] at hc
        exact hc (by norm_num [SUPPRESS_UNDER])
      simp only [estimate_errors, h1, ih, toNumericCount, if_neg hne]

/-- C1 (amended): at the suppression step, every realized group with count
strictly below 6 is replaced by the sentinel "1-5" and every other group
keeps its exact integer count; but `estimate_errors` then rewrites the
sentinel to the number 3 with error 2, so in the written per-lab aggregate
a suppressed group appears with count 3 (rendered "3", not "1-5") and
error 2, while a group of 6 or more appears with its exact count and error
0. -/
theorem C1_suppression_rendering (lab : String) (rows : List NRow)
    (practices : List (String × String)) :
    (∀ k c, (k, c) ∈ aggregateCounts rows →
      (k, if c < SUPPRESS_UNDER then CountVal.str SUPPRESS_STRING
          else CountVal.int c) ∈ suppressCounts (aggregateCounts rows)) ∧
    (∀ out r, aggregate_and_suppress lab rows practices = some out → r ∈ out →
      1 ≤ groupCount rows (aggKeyOf r) ∧
      (groupCount rows (aggKeyOf r) < SUPPRESS_UNDER →
        r.count = 3 ∧ r.error = 2 ∧ renderCount r.count ≠ SUPPRESS_STRING) ∧
      (SUPPRESS_UNDER ≤ groupCount rows (aggKeyOf r) →
        r.count = groupCount rows (aggKeyOf r) ∧ r.error = 0)) := by
  constructor
  · intro k c hk
    have : ((k, c).1, if (k, c).2 < SUPPRESS_UNDER then
        CountVal.str SUPPRESS_STRING else CountVal.int (k, c).2) ∈
        suppressCounts (aggregateCounts rows) :=
      List.mem_map_of_mem _ hk
    simpa using this
  · intro out r hout hr
    by_cases hnil : rows = []
    · rw [hnil] at hout
      simp [aggregate_and_suppress] at hout
    · rw [aggregate_and_suppress, if_neg hnil,
        estimate_errors_suppress lab (aggregateCounts rows)] at hout
      simp only [Option.map_some', Option.some.injEq] at hout
      subst hout
      have hr1 := List.mem_filter.mp hr
      have hr2 := List.mem_filter.mp hr1.1
      rcases List.mem_map.mp hr2.1 with ⟨kc, hkc, hrow⟩
      rcases List.mem_map.mp hkc with ⟨k, hkk, hkck⟩
      subst hkck
      have hkey : aggKeyOf r = k := by rw [← hrow]; rfl
      have hcount : groupCount rows (aggKeyOf r) = groupCount rows k := by
        rw [hkey]
      have hpos : 0 < groupCount rows k := by
        rcases List.mem_dedup.mp hkk with hmem
        rcases List.mem_map.mp hmem with ⟨row0, hrow0, hrow0k⟩
        exact List.countP_pos_iff.mpr ⟨row0, hrow0, by simp [hrow0k]⟩
      have hcnt : r.count =
          (if groupCount rows k < SUPPRESS_UNDER then 3 else groupCount rows k) := by
        rw [← hrow]
        rfl
      have herr : r.error =
          (if groupCount rows k < SUPPRESS_UNDER then 2 else 0) := by
        rw [← hrow]
        rfl
      refine ⟨by rw [hcount]; exact hpos, ?_, ?_⟩
      · intro hlt
        rw [hcount] at hlt
        refine ⟨by rw [hcnt, if_pos hlt], by rw [herr, if_pos hlt], ?_⟩
        rw [hcnt, if_pos hlt]
        decide
      · intro hge
        have hnlt : ¬ groupCount rows k < SUPPRESS_UNDER :=
          not_lt.mpr (by rwa [hcount] at hge)
        exact ⟨by rw [hcnt, if_neg hnlt, hcount], by rw [herr, if_neg hnlt]⟩

/-- The concrete input of the C1 counterexample: 5 rows in one group and 6
rows in another, all in one month at one practice. -/
def c1DemoRows : List NRow :=
  List.replicate 5 ⟨"2021/01/01", "TC", "P1", 0⟩ ++
    List.replicate 6 ⟨"2021/01/01", "TC", "P1", 1⟩

/-- The practice lookup of the C1 counterexample. -/
def c1DemoPractices : List (String × String) := [("2021/01/01", "P1")]

/-- C1 counterexample: the group of size 5 does not appear in the written
per-lab aggregate with the sentinel string "1-5" — `estimate_errors` has
rewritten it to the number 3 (rendered "3") with error 2.  The group of
size 6 does appear with its exact count 6. -/
theorem C1_suppression_counterexample :
    aggregate_and_suppress "lab1" c1DemoRows c1DemoPractices =
        some [⟨"2021/01/01", "TC", "P1", 0, "lab1", 3, 2⟩,
              ⟨"2021/01/01", "TC", "P1", 1, "lab1", 6, 0⟩] ∧
      groupCount c1DemoRows ("2021/01/01", "TC", "P1", 0) = 5 ∧
      renderCount 3 ≠ SUPPRESS_STRING := by
  decide

/-- Closed witness for C1's amended statement, applied at the
counterexample input. -/
theorem C1_suppression_witness :
    (1 ≤ groupCount c1DemoRows
        (aggKeyOf ⟨"2021/01/01", "TC", "P1", 0, "lab1", 3, 2⟩)) ∧
      (⟨"2021/01/01", "TC", "P1", 0, "lab1", 3, 2⟩ : AggRow).count = 3 := by
  have h := (C1_suppression_rendering "lab1" c1DemoRows c1DemoPractices).2
    [⟨"2021/01/01", "TC", "P1", 0, "lab1", 3, 2⟩,
     ⟨"2021/01/01", "TC", "P1", 1, "lab1", 6, 0⟩]
    ⟨"2021/01/01", "TC", "P1", 0, "lab1", 3, 2⟩
    (by decide) (by decide)
  exact ⟨h.1, (h.2.1 (by decide)).1⟩

/-- C7 (amended): `trim_trailing_months` keeps exactly the rows of months
whose total is strictly greater than 5% of the maximum monthly total; a
month whose total is less than or equal to the threshold — including one
equal to exactly 5% of the maximum — is dropped. -/
theorem C7_trailing_trim (df : List AggRow) (r : AggRow) (h : r ∈ df) :
    (r ∈ trim_trailing_months df ↔
      maxMonthlyTotal df * 5 < monthTotal df r.month * 100) ∧
    (r ∉ trim_trailing_months df ↔
      monthTotal df r.month * 100 ≤ maxMonthlyTotal df * 5) := by
  constructor
  · constructor
    · intro hmem
      have := (List.mem_filter.mp hmem).2
      exact of_decide_eq_true this
    · intro hgt
      exact List.mem_filter.mpr ⟨h, decide_eq_true hgt⟩
  · constructor
    · intro hnmem
      by_contra hcontra
      exact hnmem (List.mem_filter.mpr ⟨h, decide_eq_true (not_le.mp hcontra)⟩)
    · intro hle hmem
      have := of_decide_eq_true (List.mem_filter.mp hmem).2
      exact absurd this (not_lt.mpr hle)

/-- The concrete input of the C7 counterexample: one month totalling 40
and one month totalling exactly 2 = 5% of 40. -/
def c7DemoRows : List AggRow :=
  [⟨"2021/01/01", "TC", "P1", 0, "lab1", 40, 0⟩,
   ⟨"2021/02/01", "TC", "P1", 0, "lab1", 2, 0⟩]

/-- C7 counterexample: a month whose total equals exactly 5% of the
maximum monthly total is dropped by `trim_trailing_months`, not retained
(the source keeps only months with total strictly greater than the
threshold). -/
theorem C7_trailing_trim_counterexample :
    trim_trailing_months c7DemoRows =
        [⟨"2021/01/01", "TC", "P1", 0, "lab1", 40, 0⟩] ∧
      monthTotal c7DemoRows "2021/02/01" * 100 =
        maxMonthlyTotal c7DemoRows * 5 ∧
      (⟨"2021/02/01", "TC", "P1", 0, "lab1", 2, 0⟩ : AggRow) ∈ c7DemoRows ∧
      (⟨"2021/02/01", "TC", "P1", 0, "lab1", 2, 0⟩ : AggRow) ∉
        trim_trailing_months c7DemoRows := by
  decide

/-- Closed witness for C7's amended statement: at the counterexample
input, the high-volume month is retained and the exactly-5% month is
dropped. -/
theorem C7_trailing_trim_witness :
    (⟨"2021/01/01", "TC", "P1", 0, "lab1", 40, 0⟩ : AggRow) ∈
        trim_trailing_months c7DemoRows ∧
      (⟨"2021/02/01", "TC", "P1", 0, "lab1", 2, 0⟩ : AggRow) ∉
        trim_trailing_months c7DemoRows := by
  constructor
  · exact (C7_trailing_trim c7DemoRows _ (by decide)).1.mpr (by decide)
  · exact (C7_trailing_trim c7DemoRows _ (by decide)).2.mpr (by decide)

/-! ### combine_and_append_csvs (`lib/whole_file_processing.py`) -/

/-- Merge-step failures: `IndexError` from `month_vals[-1]` on an empty
existing dataset, and the 20%-growth integrity `assert`. -/
inductive MergeErr where
  | indexError
  | integrityError
deriving DecidableEq, Repr

/-- Observable side effects of `combine_and_append_csvs`, in execution
order: writing the combined dataset (`merged.to_csv`), marking one
per-file dataset merged in the ledger (`mark_as_merged`), and deleting its
file (`os.remove`). -/
inductive MEv where
  | writeCombined (rows : List NRow)
  | markMerged (fn : String)
  | deleteFile (fn : String)
deriving DecidableEq, Repr

/-- The `existing["month"] != settings.DATE_FLOOR` comparison: in
`lib/settings.py`, `DATE_FLOOR` is a `datetime.date` while the `month`
column holds strings, so the elementwise equality never holds and the
filter keeps every row. -/
def monthEqualsDateFloor (_m : String) : Bool := false

/-- `existing = existing[existing["month"] != settings.DATE_FLOOR]`. -/
def removeDateFloorRows (rows : List NRow) : List NRow :=
  rows.filter fun r => ! monthEqualsDateFloor r.month

/-- `sorted(existing["month"].unique())[-1]`: the maximum month string
(string comparison on `"YYYY/MM/DD"` months is chronological), `none` on
an empty dataset (where the source raises `IndexError`). -/
def maxMonth (ms : List String) : Option String :=
  ms.foldl
    (fun acc m =>
      match acc with
      | none => some m
      | some a => if a < m then some m else some a)
    none

/-- `existing[existing["month"] == final_month].count().iloc[0]`: the
number of rows in one month (the first column, `month`, has no nulls). -/
def monthCount (rows : List NRow) (m : String) : ℕ :=
  rows.countP fun r => decide (r.month = m)

/-- The tail of `combine_and_append_csvs` once `merged` is computed: write
the combined CSV when there are unmerged files (`if unmerged_filenames:`),
then mark each consumed file merged and delete it. -/
def mergeProceed (fnames : List String) (merged : List NRow) :
    List MEv × Except MergeErr (List NRow) :=
  ((if fnames = [] then [] else [MEv.writeCombined merged]) ++
    fnames.flatMap fun f => [MEv.markMerged f, MEv.deleteFile f],
   Except.ok merged)

/-- The `try` branch of `combine_and_append_csvs` when a combined dataset
already exists: compute the most recent month's pre-merge row count,
merge, recount, and run the 20%-growth integrity `assert
(new_final_count - final_count) < 0.2 * final_count` — embedded in exact
integer arithmetic, multiplied by 5: `(new - old) * 5 < old`. -/
def combineExisting (e : List NRow) (fnames : List String)
    (unmerged : List NRow) : List MEv × Except MergeErr (List NRow) :=
  match maxMonth ((e.map fun r => r.month).dedup) with
  | none => ([], Except.error MergeErr.indexError)
  | some fm =>
    let merged := if fnames = [] then e else e ++ unmerged
    if ((monthCount merged fm : ℤ) - (monthCount e fm : ℤ)) * 5 <
        (monthCount e fm : ℤ) then
      mergeProceed fnames merged
    else
      ([], Except.error MergeErr.integrityError)

/-- `combine_and_append_csvs`: `existing` is the on-disk combined dataset
(`none` models `FileNotFoundError`), `unmergedFiles` the unmerged per-file
datasets in ledger order, as `(converted filename, rows)`.  Returns the
trace of effects actually performed and either the merged dataset or the
error that aborted the merge (an exception raised before any effect). -/
def combine_and_append_csvs (existing : Option (List NRow))
    (unmergedFiles : List (String × List NRow)) :
    List MEv × Except MergeErr (List NRow) :=
  let fnames := unmergedFiles.map fun p => p.1
  let unmerged := (unmergedFiles.map fun p => p.2).flatten
  match existing with
  | none => mergeProceed fnames unmerged
  | some e0 => combineExisting (removeDateFloorRows e0) fnames unmerged

/-- Any run of the existing-dataset branch either aborts with an error and
an empty effect trace, or ends in the `mergeProceed` tail. -/
lemma combineExisting_shape (e : List NRow) (fnames : List String)
    (unmerged : List NRow) :
    (∃ err, combineExisting e fnames unmerged = ([], Except.error err)) ∨
    (∃ merged, combineExisting e fnames unmerged = mergeProceed fnames merged) := by
  cases hm : maxMonth ((e.map fun r => r.month).dedup) with
  | none =>
    refine Or.inl ⟨MergeErr.indexError, ?_⟩
    unfold combineExisting
    rw [hm]
  | some fm =>
    by_cases hif : ((monthCount (if fnames = [] then e else e ++ unmerged) fm : ℤ) -
        (monthCount e fm : ℤ)) * 5 < (monthCount e fm : ℤ)
    · refine Or.inr ⟨if fnames = [] then e else e ++ unmerged, ?_⟩
      unfold combineExisting
      rw [hm]
      exact if_pos hif
    · refine Or.inl ⟨MergeErr.integrityError, ?_⟩
      unfold combineExisting
      rw [hm]
      exact if_neg hif

/-- In a `mergeProceed` trace, every ledger marking is preceded by the
combined-dataset write. -/
lemma mergeProceed_mark_after_write (fnames : List String) (merged : List NRow)
    (pre : List MEv) (fn : String) (post : List MEv) :
    (mergeProceed fnames merged).1 = pre ++ MEv.markMerged fn :: post →
    ∃ rows, MEv.writeCombined rows ∈ pre := by
  by_cases h : fnames = []
  · subst h
    intro htr
    exfalso
    have hnil : pre ++ MEv.markMerged fn :: post = [] := by
      simpa [mergeProceed] using htr.symm
    exact List.cons_ne_nil _ _ (List.append_eq_nil.mp hnil).2
  · intro htr
    simp only [mergeProceed, if_neg h, List.singleton_append] at htr
    cases pre with
    | nil => simp at htr
    | cons a pre2 =>
      rw [List.cons_append] at htr
      have ha : MEv.writeCombined merged = a := (List.cons.injEq _ _ _ _ ▸ htr).1
      exact ⟨merged, ha ▸ List.mem_cons_self a pre2⟩

/-- C5: `combine_and_append_csvs` marks a per-file dataset merged only
after the combined dataset has been written (in every successful trace,
each `markMerged` is preceded by the `writeCombined`), and when the merge
aborts with an error — in particular the 20%-growth integrity failure —
the effect trace is empty: the pre-existing combined dataset is not
overwritten and no ledger entry is marked merged. -/
theorem C5_mark_after_write (existing : Option (List NRow))
    (unmergedFiles : List (String × List NRow)) :
    (∀ err, (combine_and_append_csvs existing unmergedFiles).2 = Except.error err →
      (combine_and_append_csvs existing unmergedFiles).1 = []) ∧
    (∀ pre fn post,
      (combine_and_append_csvs existing unmergedFiles).1 =
        pre ++ MEv.markMerged fn :: post →
      ∃ rows, MEv.writeCombined rows ∈ pre) := by
  cases existing with
  | none =>
    constructor
    · intro err herr
      exact absurd herr (by simp [combine_and_append_csvs, mergeProceed])
    · intro pre fn post htr
      exact mergeProceed_mark_after_write _ _ pre fn post htr
  | some e0 =>
    rcases combineExisting_shape (removeDateFloorRows e0)
        (unmergedFiles.map fun p => p.1)
        ((unmergedFiles.map fun p => p.2).flatten) with ⟨err0, hsh⟩ | ⟨merged, hsh⟩
    · constructor
      · intro err _
        show (combineExisting _ _ _).1 = []
        rw [hsh]
      · intro pre fn post htr
        exfalso
        have h1 : (combineExisting (removeDateFloorRows e0)
            (unmergedFiles.map fun p => p.1)
            ((unmergedFiles.map fun p => p.2).flatten)).1 =
            pre ++ MEv.markMerged fn :: post := htr
        rw [hsh] at h1
        exact List.cons_ne_nil _ _ (List.append_eq_nil.mp h1.symm).2
    · constructor
      · intro err herr
        have h2 : (combineExisting (removeDateFloorRows e0)
            (unmergedFiles.map fun p => p.1)
            ((unmergedFiles.map fun p => p.2).flatten)).2 = Except.error err := herr
        rw [hsh] at h2
        exact absurd h2 (by simp [mergeProceed])
      · intro pre fn post htr
        have h1 : (combineExisting (removeDateFloorRows e0)
            (unmergedFiles.map fun p => p.1)
            ((unmergedFiles.map fun p => p.2).flatten)).1 =
            pre ++ MEv.markMerged fn :: post := htr
        rw [hsh] at h1
        exact mergeProceed_mark_after_write _ _ pre fn post h1

/-- Closed witness for C5: merging the same single-row file into an
identical existing combined dataset fails the integrity check, and the
effect trace is empty — nothing is overwritten, nothing marked merged. -/
theorem C5_mark_after_write_witness :
    (combine_and_append_csvs (some [⟨"2021/01/01", "TC", "P1", 0⟩])
        [("f.csv", [⟨"2021/01/01", "TC", "P1", 0⟩])]).1 = [] :=
  (C5_mark_after_write (some [⟨"2021/01/01", "TC", "P1", 0⟩])
    [("f.csv", [⟨"2021/01/01", "TC", "P1", 0⟩])]).1
    MergeErr.integrityError (by rfl)

/-- C4: when a combined dataset exists and merging the unmerged per-file
datasets would grow its most recent month's row count by more than 20% of
the pre-merge count, `combine_and_append_csvs` aborts with the
data-integrity error and performs no effects, rather than persisting the
merge. -/
theorem C4_integrity_check (e0 : List NRow)
    (unmergedFiles : List (String × List NRow)) (fm : String)
    (hfm : maxMonth (((removeDateFloorRows e0).map fun r => r.month).dedup) =
      some fm)
    (hne : unmergedFiles.map (fun p => p.1) ≠ [])
    (hgrow : (monthCount (removeDateFloorRows e0) fm : ℤ) <
      ((monthCount (removeDateFloorRows e0 ++
          (unmergedFiles.map fun p => p.2).flatten) fm : ℤ) -
        (monthCount (removeDateFloorRows e0) fm : ℤ)) * 5) :
    combine_and_append_csvs (some e0) unmergedFiles =
      ([], Except.error MergeErr.integrityError) := by
  show combineExisting (removeDateFloorRows e0) (unmergedFiles.map fun p => p.1)
      ((unmergedFiles.map fun p => p.2).flatten) = _
  have hcond : ¬ ((monthCount (if (unmergedFiles.map fun p => p.1) = []
          then removeDateFloorRows e0
          else removeDateFloorRows e0 ++ (unmergedFiles.map fun p => p.2).flatten) fm : ℤ) -
        (monthCount (removeDateFloorRows e0) fm : ℤ)) * 5 <
      (monthCount (removeDateFloorRows e0) fm : ℤ) := by
    rw [if_neg hne]
    exact lt_asymm hgrow
  unfold combineExisting
  rw [hfm]
  exact if_neg hcond

/-- Closed witness for C4, at the spec's own scenario: merging the same
file's contents a second time doubles the most recent month (1 row to 2
rows, +100% > +20%) and raises the integrity failure. -/
theorem C4_integrity_check_witness :
    combine_and_append_csvs (some [⟨"2021/01/01", "TC", "P1", 0⟩])
        [("f.csv", [⟨"2021/01/01", "TC", "P1", 0⟩])] =
      ([], Except.error MergeErr.integrityError) :=
  C4_integrity_check [⟨"2021/01/01", "TC", "P1", 0⟩]
    [("f.csv", [⟨"2021/01/01", "TC", "P1", 0⟩])] "2021/01/01"
    (by decide) (by decide) (by decide)

/-! ### make_intermediate_file
(`data_sources/lib/intermediate_file_processing.py`) and the processing
ledger (`data_sources/lib/intermediate_file_tracking.py`) -/

/-- A converted-file name in `INTERMEDIATE_DIR`, as (basename,
disambiguator): `(b, 0)` stands for `b.csv` and `(b, n)` with `n ≥ 1` for
`b_n.csv` (the numeric-suffix scheme of `make_intermediate_file`). -/
abbrev CName := String × ℕ

/-- `most_common_date.replace("/", "_")`: for the single-character
pattern this replaces each '/' by '_'. -/
def replaceSlash (m : String) : String :=
  String.mk (m.data.map fun c => if c = '/' then '_' else c)

/-- The base output filename
`"{}converted_{}_{}".format(settings.ENV, lab,
most_common_date.replace("/", "_"))`. -/
def mkBase (env lab month : String) : String :=
  env ++ "converted_" ++ lab ++ "_" ++ replaceSlash month

/-- The `while os.path.exists(...)` loop searching an unused suffix,
starting at candidate `n` with enough fuel to pass every existing file. -/
def findFree (fs : Finset CName) (base : String) : ℕ → ℕ → ℕ
  | 0, n => n
  | fuel + 1, n => if (base, n) ∈ fs then findFree fs base fuel (n + 1) else n

/-- The disambiguator chosen by `make_intermediate_file`: 0 (no suffix)
when `base.csv` does not exist, otherwise the first free `base_n.csv`
with `n ≥ 1`. -/
def freeIdx (fs : Finset CName) (base : String) : ℕ :=
  if (base, 0) ∈ fs then findFree fs base (fs.card + 1) 1 else 0

/-- One `Counter` update (`first_dates[row["month"]] += 1`), preserving
insertion order. -/
def bumpCounter : List (String × ℕ) → String → List (String × ℕ)
  | [], m => [(m, 1)]
  | (k, c) :: rest, m =>
    if k = m then (k, c + 1) :: rest else (k, c) :: bumpCounter rest m

/-- The month `Counter` built while writing rows. -/
def counterOf (ms : List String) : List (String × ℕ) := ms.foldl bumpCounter []

/-- One step of selecting the maximal-count entry: a later entry wins only
with a strictly greater count (`most_common` sorts stably, so on ties the
earliest-inserted key wins). -/
def pickMax (best : Option (String × ℕ)) (e : String × ℕ) :
    Option (String × ℕ) :=
  match best with
  | none => some e
  | some b => if b.2 < e.2 then some e else some b

/-- `Counter.most_common(1)[0][0]` as an `Option` (`none` models the
`IndexError` on an empty counter): the key with the maximal count. -/
def mostCommon (c : List (String × ℕ)) : Option String :=
  (c.foldl pickMax none).map fun b => b.1

/-- The rows that survive the per-row pipeline among the first 1000 raw
rows: the loop counts `first_dates[row["month"]] += 1` under `if i < 1000`
where `i` is the `enumerate` index over the *raw* row iterator, so only
survivors among the first 1000 raw rows are counted.  `process` abstracts
the whole per-row block as one function; `none` models a `StopProcessing`
skip raised by the lab-supplied `drop_unwanted_data` / `normalise_data`
(external collaborators, spec §6).  This abstraction assumes each per-row
step either returns or skips; the staged in-core `skip_old_data` instead
raises an unhandled `AttributeError` on every row that reaches it, which
is modelled explicitly by `make_intermediate_file_staged` below — so a
`process` with surviving rows describes the pipeline only with that
defect repaired, while an all-skip `process` (every row dropped by the
lab filters, C10) agrees with the staged program exactly. -/
def survivors1000 {α : Type} (process : α → Option NRow) (raws : List α) :
    List NRow :=
  (raws.take 1000).filterMap process

/-- `IndexError` from `first_dates.most_common(1)[0]` on an empty
counter. -/
inductive FileErr where
  | indexError
deriving DecidableEq, Repr

/-- `make_intermediate_file`, up to the filename computation: write all
surviving rows, derive the output name from the lab and the most common
month among survivors in the first 1000 raw rows, and disambiguate
against the existing files `fs`.  Returns the chosen name and the rows
written. -/
def make_intermediate_file {α : Type} (fs : Finset CName) (env lab : String)
    (process : α → Option NRow) (raws : List α) :
    Except FileErr (CName × List NRow) :=
  match mostCommon (counterOf ((survivors1000 process raws).map fun r => r.month)) with
  | none => Except.error FileErr.indexError
  | some m =>
    Except.ok ((mkBase env lab m, freeIdx fs (mkBase env lab m)),
      raws.filterMap process)

/-- One row of the `processed` table of
`data_sources/lib/intermediate_file_tracking.py` (`merged` stands for
`merged_at` being set). -/
structure LEntry where
  lab : String
  filename : String
  converted_filename : CName
  merged : Bool
deriving DecidableEq, Repr

/-- The state the converter and runner mutate: the ledger table and the
set of files existing in `INTERMEDIATE_DIR`. -/
structure RunState where
  ledger : List LEntry
  fs : Finset CName
deriving DecidableEq

/-- Conversion-phase failures: a file error from `make_intermediate_file`,
or the `IntegrityError` a duplicate insert under the unique index
`idx_lab_filename` raises. -/
inductive RunErr where
  | fileErr (e : FileErr)
  | uniqueViolation
deriving DecidableEq, Repr

/-- `mark_as_processed`: INSERT into `processed`; the unique index on
`(lab, filename)` makes a duplicate insert raise. -/
def mark_as_processed (st : RunState) (lab fn : String) (conv : CName) :
    Except RunErr RunState :=
  if st.ledger.any fun e => decide (e.lab = lab ∧ e.filename = fn) then
    Except.error RunErr.uniqueViolation
  else
    Except.ok { st with ledger := st.ledger ++ [⟨lab, fn, conv, false⟩] }

/-- `get_processed_filenames`: all source filenames recorded for a lab. -/
def get_processed_filenames (st : RunState) (lab : String) : List String :=
  (st.ledger.filter fun e => decide (e.lab = lab)).map fun e => e.filename

/-- The full `make_intermediate_file`, with its effects: on success the
temporary file is renamed to the chosen name (`os.rename`) and
`mark_as_processed` is called (line 250 of
`intermediate_file_processing.py`).  On an error, effects performed so far
persist (the exception propagates past them). -/
def makeIntermediateSt {α : Type} (st : RunState) (env lab fn : String)
    (process : α → Option NRow) (raws : List α) :
    RunState × Option CName × Option RunErr :=
  match make_intermediate_file st.fs env lab process raws with
  | Except.error e => (st, none, some (RunErr.fileErr e))
  | Except.ok (name, _rows) =>
    match mark_as_processed { st with fs := insert name st.fs } lab fn name with
    | Except.error e => ({ st with fs := insert name st.fs }, some name, some e)
    | Except.ok st2 => (st2, some name, none)

/-- `bumpCounter` never produces an empty counter. -/
lemma bumpCounter_ne_nil (c : List (String × ℕ)) (m : String) :
    bumpCounter c m ≠ [] := by
  cases c with
  | nil => simp [bumpCounter]
  | cons e rest =>
    cases e with
    | mk k cnt =>
      simp only [bumpCounter]
      by_cases h : k = m
      · rw [if_pos h]
        exact List.cons_ne_nil _ _
      · rw [if_neg h]
        exact List.cons_ne_nil _ _

/-- Folding `bumpCounter` preserves non-emptiness. -/
lemma foldl_bump_ne_nil (ms : List String) :
    ∀ acc, acc ≠ [] → ms.foldl bumpCounter acc ≠ [] := by
  induction ms with
  | nil => intro acc h; exact h
  | cons m rest ih =>
    intro acc _
    rw [List.foldl_cons]
    exact ih _ (bumpCounter_ne_nil acc m)

/-- The counter of a nonempty month list is nonempty. -/
lemma counterOf_ne_nil (ms : List String) (h : ms ≠ []) : counterOf ms ≠ [] := by
  cases ms with
  | nil => exact absurd rfl h
  | cons m rest =>
    rw [counterOf, List.foldl_cons]
    exact foldl_bump_ne_nil rest _ (bumpCounter_ne_nil [] m)

/-- `pickMax` of a `some` accumulator is always `some`. -/
lemma pickMax_some (b e : String × ℕ) : ∃ x, pickMax (some b) e = some x := by
  simp only [pickMax]
  by_cases h : b.2 < e.2
  · exact ⟨e, if_pos h⟩
  · exact ⟨b, if_neg h⟩

/-- Folding `pickMax` from a `some` accumulator stays `some`. -/
lemma foldl_pickMax_isSome (c : List (String × ℕ)) :
    ∀ b, (c.foldl pickMax (some b)).isSome = true := by
  induction c with
  | nil => intro b; rfl
  | cons e rest ih =>
    intro b
    rw [List.foldl_cons]
    rcases pickMax_some b e with ⟨x, hx⟩
    rw [hx]
    exact ih x

/-- A nonempty counter has a most common entry. -/
lemma mostCommon_isSome (c : List (String × ℕ)) (h : c ≠ []) :
    (mostCommon c).isSome = true := by
  cases c with
  | nil => exact absurd rfl h
  | cons e rest =>
    rw [mostCommon, List.foldl_cons]
    rw [show pickMax none e = some e from rfl]
    rcases Option.isSome_iff_exists.mp (foldl_pickMax_isSome rest e) with ⟨x, hx⟩
    rw [hx]
    rfl

/-- Pigeonhole for the disambiguator search: some suffix among
`1 .. card + 1` is unused. -/
lemma exists_free (fs : Finset CName) (base : String) :
    ∃ m, 1 ≤ m ∧ m < 1 + (fs.card + 1) ∧ (base, m) ∉ fs := by
  by_contra hcon
  push_neg at hcon
  have hsub : (Finset.Icc 1 (fs.card + 1)).image (fun m => (base, m)) ⊆ fs := by
    intro x hx
    rcases Finset.mem_image.mp hx with ⟨m, hm, rfl⟩
    rcases Finset.mem_Icc.mp hm with ⟨h1, h2⟩
    exact hcon m h1 (by omega)
  have hinj : Function.Injective (fun m : ℕ => (base, m)) := by
    intro a b hab
    simpa using congrArg Prod.snd hab
  have hcard := Finset.card_le_card hsub
  rw [Finset.card_image_of_injective _ hinj, Nat.card_Icc] at hcard
  omega

/-- Correctness of the `while os.path.exists` loop: with a free suffix in
reach of the fuel, it returns the least free suffix at or after the start,
with every skipped candidate actually existing. -/
lemma findFree_spec (fs : Finset CName) (base : String) :
    ∀ (fuel n : ℕ), (∃ m, n ≤ m ∧ m < n + fuel ∧ (base, m) ∉ fs) →
      (base, findFree fs base fuel n) ∉ fs ∧ n ≤ findFree fs base fuel n ∧
        ∀ j, n ≤ j → j < findFree fs base fuel n → (base, j) ∈ fs := by
  intro fuel
  induction fuel with
  | zero =>
    intro n ⟨m, h1, h2, _⟩
    omega
  | succ fuel ih =>
    intro n hex
    by_cases hmem : (base, n) ∈ fs
    · have hex2 : ∃ m, n + 1 ≤ m ∧ m < n + 1 + fuel ∧ (base, m) ∉ fs := by
        rcases hex with ⟨m, h1, h2, h3⟩
        have : m ≠ n := fun hmn => h3 (hmn ▸ hmem)
        exact ⟨m, by omega, by omega, h3⟩
      have hspec := ih (n + 1) hex2
      rw [findFree, if_pos hmem]
      refine ⟨hspec.1, by omega, ?_⟩
      intro j hj1 hj2
      by_cases hjn : j = n
      · exact hjn ▸ hmem
      · exact hspec.2.2 j (by omega) hj2
    · rw [findFree, if_neg hmem]
      exact ⟨hmem, le_refl n, fun j hj1 hj2 => absurd hj1 (by omega)⟩

/-- The chosen disambiguator: the resulting name is unused, and it is 0
exactly when the base name is free, otherwise the least free positive
suffix. -/
lemma freeIdx_spec (fs : Finset CName) (base : String) :
    (base, freeIdx fs base) ∉ fs ∧
      (freeIdx fs base = 0 ∨
        (1 ≤ freeIdx fs base ∧ (base, 0) ∈ fs ∧
          ∀ j, 1 ≤ j → j < freeIdx fs base → (base, j) ∈ fs)) := by
  by_cases h0 : (base, 0) ∈ fs
  · have hspec := findFree_spec fs base (fs.card + 1) 1 (exists_free fs base)
    simp only [freeIdx, if_pos h0]
    exact ⟨hspec.1, Or.inr ⟨hspec.2.1, h0, hspec.2.2⟩⟩
  · simp only [freeIdx, if_neg h0]
    exact ⟨h0, Or.inl trivial⟩

/-- The per-row pipeline used by the concrete converter scenarios: raw row
0 passes the lab-supplied filters with month 2021/01/01, every other raw
row is skipped by them. -/
def c8proc : ℕ → Option NRow :=
  fun n => if n = 0 then some ⟨"2021/01/01", "TC", "P1", 0⟩ else none

/-- A Python value that is either a `datetime.date` (which supports
`.strftime`; `iso` is the string `strftime("%Y/%m/%d")` would render) or
a `str` (which has no such attribute). -/
inductive DateOrStr where
  | date (iso : String)
  | str (s : String)
deriving DecidableEq, Repr

/-- Unhandled per-row exceptions, which are not `StopProcessing` and so
abort the whole file: the `AttributeError` raised by looking up
`.strftime` on a `str`. -/
inductive PyErr where
  | attributeError
deriving DecidableEq, Repr

/-- The `.strftime("%Y/%m/%d")` attribute call: defined on a date,
`AttributeError` on a string. -/
def strftimeYMD : DateOrStr → Except PyErr String
  | DateOrStr.date iso => Except.ok iso
  | DateOrStr.str _ => Except.error PyErr.attributeError

/-- `settings.DATE_FLOOR` of `data_sources/lib/settings.py` line 41:
`(date.today() - relativedelta(years=5)).strftime("%Y/%m/%d")` — the
`strftime` is applied at the definition, so the module constant is
already a string (its concrete value depends on the run date). -/
def DATE_FLOOR_ds (todayMinus5y : String) : DateOrStr :=
  DateOrStr.str todayMinus5y

/-- `skip_old_data` (`data_sources/lib/intermediate_file_processing.py`
lines 46-48): evaluate `settings.DATE_FLOOR.strftime("%Y/%m/%d")` and
signal `StopProcessing` (`ok true`) for a month below the floor.  With
the staged string `DATE_FLOOR`, the attribute lookup itself raises before
any comparison. -/
def skip_old_data (floor : DateOrStr) (row : NRow) : Except PyErr Bool :=
  match strftimeYMD floor with
  | Except.error e => Except.error e
  | Except.ok f => Except.ok (decide (row.month < f))

/-- One raw row through the per-row block of `make_intermediate_file`,
with the in-core `skip_old_data` explicit: first the lab-supplied
`drop_unwanted_data` / `normalise_data` (external collaborators, spec §6;
`none` models their `StopProcessing`), then the date floor.  `ok none` is
a skipped row, `ok (some r)` a surviving row, `error` an unhandled
exception that aborts the whole file.  (`convert_to_result` runs after
the floor and always returns the row, C9.) -/
def processRowStaged {α : Type} (normalise : α → Option NRow)
    (floor : DateOrStr) (raw : α) : Except PyErr (Option NRow) :=
  match normalise raw with
  | none => Except.ok none
  | some r =>
    match skip_old_data floor r with
    | Except.error e => Except.error e
    | Except.ok true => Except.ok none
    | Except.ok false => Except.ok (some r)

/-- The row loop of `make_intermediate_file` over the staged per-row
block: collect the surviving rows, aborting at the first unhandled
exception. -/
def runRowsStaged {α : Type} (normalise : α → Option NRow)
    (floor : DateOrStr) : List α → Except PyErr (List NRow)
  | [] => Except.ok []
  | raw :: rest =>
    match processRowStaged normalise floor raw with
    | Except.error e => Except.error e
    | Except.ok none => runRowsStaged normalise floor rest
    | Except.ok (some r) =>
      match runRowsStaged normalise floor rest with
      | Except.error e => Except.error e
      | Except.ok out => Except.ok (r :: out)

/-- `make_intermediate_file` with the staged `skip_old_data` explicit
(the abstract `make_intermediate_file` above takes the whole per-row
pipeline as one function; here only the lab-supplied steps are abstract
and the date floor runs as staged).  An unhandled exception propagates
out of the row loop, before the filename derivation, `os.rename` and
`mark_as_processed`. -/
def make_intermediate_file_staged {α : Type} (fs : Finset CName)
    (env lab : String) (normalise : α → Option NRow) (floor : DateOrStr)
    (raws : List α) : Except PyErr (Except FileErr (CName × List NRow)) :=
  match runRowsStaged normalise floor raws with
  | Except.error e => Except.error e
  | Except.ok _ =>
    Except.ok (make_intermediate_file fs env lab
      (fun raw =>
        match processRowStaged normalise floor raw with
        | Except.ok (some r) => some r
        | _ => none)
      raws)

/-- With the staged string `DATE_FLOOR`, the row loop raises
`AttributeError` as soon as any raw row passes the lab-supplied filters
and reaches the date-floor check, whatever the floor string is. -/
lemma runRowsStaged_str_floor {α : Type} (normalise : α → Option NRow)
    (s : String) (raws : List α)
    (hrow : ∃ r0 ∈ raws, normalise r0 ≠ none) :
    runRowsStaged normalise (DateOrStr.str s) raws =
      Except.error PyErr.attributeError := by
  induction raws with
  | nil =>
    rcases hrow with ⟨r0, h0, -⟩
    exact absurd h0 (List.not_mem_nil r0)
  | cons raw rest ih =>
    rcases hrow with ⟨r0, h0, hne⟩
    cases hnr : normalise raw with
    | some r =>
      simp only [runRowsStaged, processRowStaged, hnr, skip_old_data, strftimeYMD]
    | none =>
      have hmem : r0 ∈ rest := by
        rcases List.mem_cons.mp h0 with heq | hmem
        · exact absurd (heq ▸ hnr) hne
        · exact hmem
      simp only [runRowsStaged, processRowStaged, hnr]
      exact ih ⟨r0, hmem, hne⟩

/-- C8: evaluating the staged converter at the failing input.  The file
has a raw row that the lab-supplied filters pass through (so the claim
promises a converted filename encoding the lab and that row's month), but
`skip_old_data` looks up `.strftime` on `settings.DATE_FLOOR`, which
`data_sources/lib/settings.py` already defines as a `strftime`-formatted
string: the first row reaching the date-floor check raises
`AttributeError` and the whole file aborts, so the filename derivation,
`os.rename` and `mark_as_processed` are never reached.  (Stated at a
concrete floor string; `runRowsStaged_str_floor` gives the same for every
floor string and every raw input with a row passing the lab filters.) -/
theorem C8_naming_date_floor_bug :
    c8proc 0 = some ⟨"2021/01/01", "TC", "P1", 0⟩ ∧
      make_intermediate_file_staged (∅ : Finset CName) "" "lab" c8proc
          (DATE_FLOOR_ds "2016/10/12") [0] =
        Except.error PyErr.attributeError := by
  refine ⟨by decide, ?_⟩
  show make_intermediate_file_staged (∅ : Finset CName) "" "lab" c8proc
      (DateOrStr.str "2016/10/12") [0] = Except.error PyErr.attributeError
  unfold make_intermediate_file_staged
  rw [runRowsStaged_str_floor c8proc "2016/10/12" [0]
    ⟨0, by decide, by decide⟩]

/-- C10: when every raw row of the source file is skipped by the
drop/normalise/date-floor pipeline, `make_intermediate_file` raises
`IndexError` while deriving the output filename from the empty month
counter, before `os.rename` and `mark_as_processed` are reached: no named
intermediate file is produced and no ledger entry is created (the state
is unchanged). -/
theorem C10_empty_file_no_entry {α : Type} (st : RunState) (env lab fn : String)
    (process : α → Option NRow) (raws : List α)
    (hskip : ∀ r ∈ raws, process r = none) :
    makeIntermediateSt st env lab fn process raws =
      (st, none, some (RunErr.fileErr FileErr.indexError)) := by
  have hsurv : survivors1000 process raws = [] := by
    rw [survivors1000, List.filterMap_eq_nil_iff]
    intro a ha
    exact hskip a (List.take_subset 1000 raws ha)
  unfold makeIntermediateSt make_intermediate_file
  rw [hsurv]
  rfl

/-- A pipeline that skips every raw row. -/
def c10proc : ℕ → Option NRow := fun _ => none

/-- Closed witness for C10: a one-row file whose row is skipped. -/
theorem C10_empty_file_no_entry_witness :
    makeIntermediateSt (⟨[], ∅⟩ : RunState) "" "lab" "a.csv" c10proc [0] =
      ((⟨[], ∅⟩ : RunState), none, some (RunErr.fileErr FileErr.indexError)) :=
  C10_empty_file_no_entry (⟨[], ∅⟩ : RunState) "" "lab" "a.csv" c10proc [0]
    (by decide)

/-! ### The orchestrator (`data_sources/lib/runner.py`) -/

/-- Observable conversion-phase events: a source file was converted (its
intermediate file renamed into place), and the merge phase
(`combine_and_append_csvs` / `normalise_and_suppress` /
`make_final_csv`, modeled in detail above) was entered. -/
inductive REv where
  | converted (fn : String) (name : CName)
  | mergePhase
deriving DecidableEq, Repr

/-- `process_file` of `data_sources/lib/runner.py`: run
`make_intermediate_file` (which registers the ledger entry itself, line
250 of `intermediate_file_processing.py`) and then call
`mark_as_processed` a second time (line 39 of `runner.py`).  On an
exception the state mutated so far persists. -/
def process_file6 {α : Type} (env lab : String) (process : α → Option NRow)
    (rowsOf : String → List α) (st : RunState) (fn : String) :
    RunState × List REv × Option RunErr :=
  match makeIntermediateSt st env lab fn process (rowsOf fn) with
  | (st1, none, e) => (st1, [], e)
  | (st1, some name, some e) => (st1, [REv.converted fn name], some e)
  | (st1, some name, none) =>
    match mark_as_processed st1 lab fn name with
    | Except.error e => (st1, [REv.converted fn name], some e)
    | Except.ok st2 => (st2, [REv.converted fn name], none)

/-- The conversion loop of `process_files`, followed by the merge barrier:
each file is processed in turn; an exception aborts the run (the merge
phase is reached only when every conversion succeeded). -/
def runLoop {α : Type} (env lab : String) (process : α → Option NRow)
    (rowsOf : String → List α) :
    RunState → List String → RunState × List REv × Option RunErr
  | st, [] => (st, [REv.mergePhase], none)
  | st, fn :: rest =>
    match process_file6 env lab process rowsOf st fn with
    | (st1, evs, some e) => (st1, evs, some e)
    | (st1, evs, none) =>
      let out := runLoop env lab process rowsOf st1 rest
      (out.1, evs ++ out.2.1, out.2.2)

/-- `process_files` of `data_sources/lib/runner.py` (without the
`reimport` branch): subtract the already-processed filenames
(`set(filenames) - set(seen_filenames)`) and do nothing when the work set
is empty; otherwise convert every remaining file and then run the merge
phase.  The source iterates over a Python set whose order is unspecified;
the model processes the work set in input order. -/
def process_files6 {α : Type} (env lab : String) (process : α → Option NRow)
    (rowsOf : String → List α) (st : RunState) (filenames : List String) :
    RunState × List REv × Option RunErr :=
  let work := (filenames.filter fun f =>
    decide (f ∉ get_processed_filenames st lab)).dedup
  if work = [] then (st, [], none)
  else runLoop env lab process rowsOf st work

/-- Every call yields one raw row (raw row 0, which `c8proc` converts). -/
def c6rowsOf : String → List ℕ := fun _ => [0]

/-- C6: evaluating `process_files` at the failing input.  From a fresh
state with two source files, the first run aborts with the unique-index
violation (`process_file` inserts each converted file's ledger entry
twice: once inside `make_intermediate_file` and once itself) after
converting and recording only "a.csv", and never reaches the merge; the
second run over the identical filename set then performs a conversion (of
"b.csv") instead of performing none as the claim states.  (The converter
is evaluated here with an error-free date floor; as staged, the
`AttributeError` in `skip_old_data` — see the staged date-floor model
above — aborts each file even earlier, records nothing at all, and the
claimed no-op rerun still never happens.) -/
theorem C6_rerun_ledger_bug :
    (process_files6 "" "lab" c8proc c6rowsOf ⟨[], ∅⟩ ["a.csv", "b.csv"]).2.2 =
        some RunErr.uniqueViolation ∧
      (process_files6 "" "lab" c8proc c6rowsOf ⟨[], ∅⟩
          ["a.csv", "b.csv"]).1.ledger =
        [⟨"lab", "a.csv", ("converted_lab_2021_01_01", 0), false⟩] ∧
      REv.mergePhase ∉
        (process_files6 "" "lab" c8proc c6rowsOf ⟨[], ∅⟩
          ["a.csv", "b.csv"]).2.1 ∧
      REv.converted "b.csv" ("converted_lab_2021_01_01", 1) ∈
        (process_files6 "" "lab" c8proc c6rowsOf
          (process_files6 "" "lab" c8proc c6rowsOf ⟨[], ∅⟩
            ["a.csv", "b.csv"]).1
          ["a.csv", "b.csv"]).2.1 ∧
      REv.mergePhase ∉
        (process_files6 "" "lab" c8proc c6rowsOf
          (process_files6 "" "lab" c8proc c6rowsOf ⟨[], ∅⟩
            ["a.csv", "b.csv"]).1
          ["a.csv", "b.csv"]).2.1 := by
  decide

end OpenPath
